import Mathlib

/-!
Shallow embedding of the rusty-script interpreter (lexer, parser, scope
chain, function registry and tree-walking evaluator) and proofs about it.

Machine floats (`f32` in the source) are abstracted by a type `F` together
with a record `FloatOps F` of the primitive operations the interpreter
actually uses (arithmetic, the `== 0.0` test, the `as usize` cast, the
`Display` rendering and `str::parse`).  Every definition is parametric in
`F`; concrete computations instantiate `F := Int`, which agrees with `f32`
on the small integral values they use.

Rust panics are modelled as error values.  The error constructors follow
the taxonomy of the specification: `lexError`, `parseError`, `nameError`,
`arityError`, `typeError`, `arithmeticError`; `fatal` stands for the
remaining panics (`unreachable!`, slice/index panics, `unwrap` on `None`).
-/

namespace RustyScript

/-- Primitive operations on the number type (`f32` in the source). -/
structure FloatOps (F : Type) where
  add : F → F → F
  sub : F → F → F
  mul : F → F → F
  div : F → F → F
  powf : F → F → F
  isZero : F → Bool
  toUsize : F → Nat
  toStr : F → String
  parseNum : String → Option F
  one : F
  negOne : F

/-- Error kinds; each models a `panic!` site of the source, classified by
the specification's taxonomy. -/
inductive RuntimeError where
  | lexError
  | parseError
  | nameError
  | arityError
  | typeError
  | arithmeticError
  | fatal
deriving DecidableEq

/-- `RuntimeValue` from interpreter.rs: the closed set of dynamic values. -/
inductive RuntimeValue (F : Type) where
  | number (value : F)
  | string (value : String)
  | bool (value : Bool)
  | null
deriving DecidableEq

/-- `RuntimeType` from function_registry.rs. -/
inductive RuntimeType where
  | Number
  | String
  | Bool
  | Any
  | Null
deriving DecidableEq

/-- `RuntimeValue::to_type` from interpreter.rs. -/
def RuntimeValue.to_type {F : Type} : RuntimeValue F → RuntimeType
  | .bool _ => .Bool
  | .number _ => .Number
  | .string _ => .String
  | .null => .Null

/-- `RuntimeValue::matches_type` from function_registry.rs. -/
def RuntimeValue.matches_type {F : Type} (v : RuntimeValue F) (t : RuntimeType) : Bool :=
  match v.to_type, t with
  | .Number, .Number => true
  | .Bool, .Bool => true
  | .String, .String => true
  | .Null, .Null => true
  | _, .Any => true
  | _, _ => false

/-- `str::repeat` from the standard library, used by the `*` operator. -/
def strRepeat (s : String) : Nat → String
  | 0 => ""
  | n + 1 => s ++ strRepeat s n

namespace MapList

variable {α : Type}

/-- `HashMap::contains_key` on the association-list model of a `HashMap`. -/
def containsKey : List (String × α) → String → Bool
  | [], _ => false
  | (k, _) :: rest, key => if k = key then true else containsKey rest key

/-- `HashMap::get` on the association-list model. -/
def lookup : List (String × α) → String → Option α
  | [], _ => none
  | (k, v) :: rest, key => if k = key then some v else lookup rest key

/-- `HashMap::insert` on the association-list model: replace the binding of
the key when present, append it otherwise. -/
def insert : List (String × α) → String → α → List (String × α)
  | [], key, v => [(key, v)]
  | (k, v0) :: rest, key, v =>
      if k = key then (k, v) :: rest else (k, v0) :: insert rest key v

/-- `HashMap::remove` on the association-list model. -/
def remove : List (String × α) → String → List (String × α)
  | [], _ => []
  | (k, v0) :: rest, key => if k = key then rest else (k, v0) :: remove rest key

theorem lookup_insert_self (l : List (String × α)) (k : String) (v : α) :
    lookup (insert l k v) k = some v := by
  induction l with
  | nil => simp [insert, lookup]
  | cons p rest ih =>
      by_cases h : p.1 = k
      · simp [insert, lookup, h]
      · simp [insert, lookup, h, ih]

theorem lookup_insert_ne (l : List (String × α)) (k m : String) (v : α) (h : m ≠ k) :
    lookup (insert l k v) m = lookup l m := by
  induction l with
  | nil => simp [insert, lookup, Ne.symm h]
  | cons p rest ih =>
      by_cases hk : p.1 = k
      · subst hk
        simp [insert, lookup, Ne.symm h]
      · simp [insert, lookup, hk, ih]

theorem containsKey_insert_self (l : List (String × α)) (k : String) (v : α) :
    containsKey (insert l k v) k = true := by
  induction l with
  | nil => simp [insert, containsKey]
  | cons p rest ih =>
      by_cases h : p.1 = k
      · simp [insert, containsKey, h]
      · simp [insert, containsKey, h, ih]

end MapList

/-- `Env` from env.rs: a scope owning a name-to-value map and at most one
enclosing scope (`parent: Option<Box<Env>>`). -/
inductive Env (F : Type) where
  | root (vars : List (String × RuntimeValue F))
  | child (vars : List (String × RuntimeValue F)) (parent : Env F)
deriving DecidableEq

/-- The `vars` field of the current scope. -/
def Env.vars {F : Type} : Env F → List (String × RuntimeValue F)
  | .root vs => vs
  | .child vs _ => vs

/-- The `parent` field of the current scope. -/
def Env.parent {F : Type} : Env F → Option (Env F)
  | .root _ => none
  | .child _ p => some p

/-- Replace the `vars` field of the current scope (the effect of
`self.vars.insert(..)` through `&mut self`). -/
def Env.withVars {F : Type} : Env F → List (String × RuntimeValue F) → Env F
  | .root _, vs => .root vs
  | .child _ p, vs => .child vs p

/-- `Env::add` from env.rs: panics when the name already exists in the
current scope, otherwise inserts it there. -/
def Env.add {F : Type} (e : Env F) (var_name : String) (value : RuntimeValue F) :
    Except RuntimeError (Env F) :=
  if MapList.containsKey e.vars var_name then .error .nameError
  else .ok (e.withVars (MapList.insert e.vars var_name value))

/-- `Env::update` from env.rs: panics when the name does not exist in the
current scope (it does not consult the parent chain), otherwise overwrites
it there. -/
def Env.update {F : Type} (e : Env F) (var_name : String) (value : RuntimeValue F) :
    Except RuntimeError (Env F) :=
  if MapList.containsKey e.vars var_name then
    .ok (e.withVars (MapList.insert e.vars var_name value))
  else .error .nameError

/-- `Env::get` from env.rs: walks the chain innermost-to-outermost and
panics when the name is bound nowhere. -/
def Env.get {F : Type} : Env F → String → Except RuntimeError (RuntimeValue F)
  | .root vs, var_name =>
      (match MapList.lookup vs var_name with
       | some v => .ok v
       | none => .error .nameError)
  | .child vs p, var_name =>
      (match MapList.lookup vs var_name with
       | some v => .ok v
       | none => Env.get p var_name)

section ValueOps

variable {F : Type}

/-- `impl Sub for RuntimeValue` from interpreter.rs. -/
def RuntimeValue.subOp (ops : FloatOps F) :
    RuntimeValue F → RuntimeValue F → Except RuntimeError (RuntimeValue F)
  | .number l, .number r => .ok (.number (ops.sub l r))
  | _, _ => .error .typeError

/-- `impl Add for RuntimeValue` from interpreter.rs. -/
def RuntimeValue.addOp (ops : FloatOps F) :
    RuntimeValue F → RuntimeValue F → Except RuntimeError (RuntimeValue F)
  | .number l, .number r => .ok (.number (ops.add l r))
  | .string l, .string r => .ok (.string (l ++ r))
  | .number l, .string r => .ok (.string (ops.toStr l ++ r))
  | .string l, .number r => .ok (.string (l ++ ops.toStr r))
  | _, _ => .error .typeError

/-- `impl Mul for RuntimeValue` from interpreter.rs; the string overloads
repeat the string, the count being the number cast with `as usize`. -/
def RuntimeValue.mulOp (ops : FloatOps F) :
    RuntimeValue F → RuntimeValue F → Except RuntimeError (RuntimeValue F)
  | .number l, .number r => .ok (.number (ops.mul l r))
  | .number l, .string r => .ok (.string (strRepeat r (ops.toUsize l)))
  | .string l, .number r => .ok (.string (strRepeat l (ops.toUsize r)))
  | _, _ => .error .typeError

/-- `impl Div for RuntimeValue` from interpreter.rs: a divisor equal to
`0.0` panics before dividing. -/
def RuntimeValue.divOp (ops : FloatOps F) :
    RuntimeValue F → RuntimeValue F → Except RuntimeError (RuntimeValue F)
  | .number l, .number r =>
      if ops.isZero r then .error .arithmeticError
      else .ok (.number (ops.div l r))
  | _, _ => .error .typeError

/-- `RuntimeValue::pow` from interpreter.rs. -/
def RuntimeValue.powOp (ops : FloatOps F) :
    RuntimeValue F → RuntimeValue F → Except RuntimeError (RuntimeValue F)
  | .number l, .number r => .ok (.number (ops.powf l r))
  | _, _ => .error .typeError

end ValueOps

/-- The deterministic model of the process environment the native built-ins
touch: accumulated standard output lines, pending standard input lines
(newline already stripped), the stream of values `rand::random` will yield,
and the file system as a path-to-contents map. -/
structure World (F : Type) where
  output : List String
  stdinLines : List String
  randoms : List F
  files : List (String × String)
deriving DecidableEq

/-- A world with empty output, no pending input, no random values and an
empty file system. -/
def emptyWorld {F : Type} : World F := ⟨[], [], [], []⟩

/-- `ParamCount` from function_registry.rs. -/
inductive ParamCount where
  | Fixed (num : Nat)
  | Dynamic (m : Nat)
deriving DecidableEq

/-- `ParamCount::is_fixed`. -/
def ParamCount.is_fixed : ParamCount → Bool
  | .Fixed _ => true
  | .Dynamic _ => false

/-- `Function` from function_registry.rs; the boxed closure becomes a Lean
function from the argument vector and the world to a result. -/
structure Function (F : Type) where
  name : String
  expected_params : ParamCount
  param_types : List RuntimeType
  impl : List (RuntimeValue F) → World F → Except RuntimeError (RuntimeValue F × World F)

/-- `FunctionRegistry` from function_registry.rs. -/
structure FunctionRegistry (F : Type) where
  functions : List (String × Function F)

/-- `FunctionRegistry::add_function`: a plain `HashMap::insert` keyed by the
function's name — an existing entry of the same name is replaced, with no
uniqueness check and no error. -/
def FunctionRegistry.add_function {F : Type} (fr : FunctionRegistry F) (f : Function F) :
    FunctionRegistry F :=
  ⟨MapList.insert fr.functions f.name f⟩

/-- The arity validation of `FunctionRegistry::call`. -/
def checkArity (pc : ParamCount) (n : Nat) : Except RuntimeError Unit :=
  match pc with
  | .Fixed num => if num ≠ n then .error .arityError else .ok ()
  | .Dynamic m => if n < m then .error .arityError else .ok ()

/-- The per-argument type validation loop of `FunctionRegistry::call`.
`i` is the enumeration index.  For a non-fixed (variadic) entry, an index
beyond the declared list is redirected to the last declared position
(`param_types.len() - 1`; the source computes this with unchecked `usize`
arithmetic, so an empty declared list panics, modelled by `fatal`). -/
def typeCheckLoop {F : Type} (isFix : Bool) (pts : List RuntimeType) :
    List (RuntimeValue F) → Nat → Except RuntimeError Unit
  | [], _ => .ok ()
  | arg :: rest, i =>
      match (if isFix = false ∧ pts.length ≤ i then
               (if pts.length = 0 then .error .fatal else .ok (pts.length - 1))
             else .ok i : Except RuntimeError Nat) with
      | .error e => .error e
      | .ok index =>
          match pts.get? index with
          | none => .error .fatal
          | some pt =>
              if arg.matches_type pt then typeCheckLoop isFix pts rest (i + 1)
              else .error .typeError

/-- The body of `FunctionRegistry::call` after the name lookup succeeded:
validate the argument count, validate each argument's kind, then invoke
the native implementation. -/
def Function.dispatch {F : Type} (f : Function F) (args : List (RuntimeValue F))
    (w : World F) : Except RuntimeError (RuntimeValue F × World F) :=
  match checkArity f.expected_params args.length with
  | .error e => .error e
  | .ok _ =>
      match typeCheckLoop f.expected_params.is_fixed f.param_types args 0 with
      | .error e => .error e
      | .ok _ => f.impl args w

/-- `FunctionRegistry::call`: resolve the name (panic when absent), then
dispatch through the arity and type checks to the implementation. -/
def FunctionRegistry.call {F : Type} (fr : FunctionRegistry F) (function_name : String)
    (args : List (RuntimeValue F)) (w : World F) :
    Except RuntimeError (RuntimeValue F × World F) :=
  match MapList.lookup fr.functions function_name with
  | none => .error .nameError
  | some f => f.dispatch args w

/-- `Arguments::as_any`: the argument at a position, panicking when the
position is absent. -/
def argAny {F : Type} (args : List (RuntimeValue F)) (i : Nat) :
    Except RuntimeError (RuntimeValue F) :=
  match args.get? i with
  | none => .error .fatal
  | some v => .ok v

/-- `Arguments::as_str`: panics when the position is absent or does not
hold a String. -/
def argStr {F : Type} (args : List (RuntimeValue F)) (i : Nat) :
    Except RuntimeError String :=
  match args.get? i with
  | none => .error .fatal
  | some (.string s) => .ok s
  | some _ => .error .fatal

/-- `Arguments::as_f32`: panics when the position is absent or does not
hold a Number. -/
def argF32 {F : Type} (args : List (RuntimeValue F)) (i : Nat) :
    Except RuntimeError F :=
  match args.get? i with
  | none => .error .fatal
  | some (.number n) => .ok n
  | some _ => .error .fatal

/-- The text `print` writes for a value (`println!` plus the per-variant
formatting of native_functions.rs; `Null` renders as the text `null`). -/
def render {F : Type} (ops : FloatOps F) : RuntimeValue F → String
  | .null => "null"
  | .bool b => if b then "true" else "false"
  | .number n => ops.toStr n
  | .string s => s

/-- `FunctionRegistry::new`: start from an empty table and load the ten
built-ins of native_functions.rs, in source order. -/
def FunctionRegistry.new {F : Type} (ops : FloatOps F) : FunctionRegistry F :=
  let fr : FunctionRegistry F := ⟨[]⟩
  let fr := fr.add_function ⟨"print", .Fixed 1, [.Any], fun args w => do
    let v ← argAny args 0
    .ok (.null, { w with output := w.output ++ [render ops v] })⟩
  let fr := fr.add_function ⟨"read", .Fixed 0, [], fun _ w =>
    match w.stdinLines with
    | [] => .ok (.string (""), w)
    | l :: rest => .ok (.string l, { w with stdinLines := rest })⟩
  let fr := fr.add_function ⟨"random", .Fixed 0, [], fun _ w =>
    match w.randoms with
    | [] => .error .fatal
    | r :: rest => .ok (.number r, { w with randoms := rest })⟩
  let fr := fr.add_function ⟨"toNumber", .Fixed 1, [.String], fun args w => do
    let s ← argStr args 0
    match ops.parseNum s with
    | some n => .ok (.number n, w)
    | none => .ok (.null, w)⟩
  let fr := fr.add_function ⟨"toString", .Fixed 1, [.Number], fun args w => do
    let n ← argF32 args 0
    .ok (.string (ops.toStr n), w)⟩
  let fr := fr.add_function ⟨"substring", .Fixed 3, [.String, .Number, .Number], fun args w => do
    let s ← argStr args 0
    let a ← argF32 args 1
    let b ← argF32 args 2
    let idxStart := ops.toUsize a
    let idxEnd := ops.toUsize b
    let cs := s.toList
    if idxEnd < cs.length ∧ idxStart ≤ idxEnd + 1 then
      .ok (.string (String.mk ((cs.drop idxStart).take (idxEnd + 1 - idxStart))), w)
    else .error .fatal⟩
  let fr := fr.add_function ⟨"writeFile", .Fixed 2, [.String, .String], fun args w => do
    let p ← argStr args 0
    let c ← argStr args 1
    .ok (.bool true, { w with files := MapList.insert w.files p c })⟩
  let fr := fr.add_function ⟨"readFile", .Fixed 1, [.String], fun args w => do
    let p ← argStr args 0
    match MapList.lookup w.files p with
    | some c => .ok (.string c, w)
    | none => .ok (.null, w)⟩
  let fr := fr.add_function ⟨"deleteFile", .Fixed 1, [.String], fun args w => do
    let p ← argStr args 0
    if MapList.containsKey w.files p then
      .ok (.bool true, { w with files := MapList.remove w.files p })
    else .ok (.bool false, w)⟩
  let fr := fr.add_function ⟨"exists", .Fixed 1, [.String], fun args w => do
    let p ← argStr args 0
    .ok (.bool (MapList.containsKey w.files p), w)⟩
  fr

/-- `Token` from tokenizer.rs. -/
inductive Token (F : Type) where
  | Identifier (value : String)
  | NumberLiteral (value : F)
  | BoolLiteral (value : Bool)
  | StringLiteral (value : String)
  | LeftParen
  | RightParen
  | SemiColon
  | EqOp
  | NotEqOp
  | SubOp
  | AddOp
  | MulOp
  | DivOp
  | PowOp
  | GtOp
  | LtOp
  | NegationOp
  | LeftSqBrace
  | RightSqBrace
  | LeftCurlyBrace
  | RightCurlyBrace
  | Comma
  | EOF
deriving DecidableEq

/-- `TokenKind` from tokenizer.rs. -/
inductive TokenKind where
  | Identifier
  | NumberLiteral
  | BoolLiteral
  | StringLiteral
  | LeftParen
  | RightParen
  | SemiColon
  | EqOp
  | NotEqOp
  | SubOp
  | AddOp
  | MulOp
  | DivOp
  | PowOp
  | GtOp
  | LtOp
  | NegationOp
  | LeftSqBrace
  | RightSqBrace
  | LeftCurlyBrace
  | RightCurlyBrace
  | Comma
  | EOF
deriving DecidableEq

/-- `Token::kind`. -/
def Token.kind {F : Type} : Token F → TokenKind
  | .Identifier _ => .Identifier
  | .NumberLiteral _ => .NumberLiteral
  | .BoolLiteral _ => .BoolLiteral
  | .StringLiteral _ => .StringLiteral
  | .LeftParen => .LeftParen
  | .RightParen => .RightParen
  | .SemiColon => .SemiColon
  | .EqOp => .EqOp
  | .NotEqOp => .NotEqOp
  | .SubOp => .SubOp
  | .AddOp => .AddOp
  | .MulOp => .MulOp
  | .DivOp => .DivOp
  | .PowOp => .PowOp
  | .GtOp => .GtOp
  | .LtOp => .LtOp
  | .NegationOp => .NegationOp
  | .LeftSqBrace => .LeftSqBrace
  | .RightSqBrace => .RightSqBrace
  | .LeftCurlyBrace => .LeftCurlyBrace
  | .RightCurlyBrace => .RightCurlyBrace
  | .Comma => .Comma
  | .EOF => .EOF

/-- `Token::as_string`: panics (`casting_error`) unless the token is an
identifier or a string literal. -/
def Token.as_string {F : Type} : Token F → Except RuntimeError String
  | .Identifier v => .ok v
  | .StringLiteral v => .ok v
  | _ => .error .fatal

/-- The `EmptySpace` character class of reg_exp.rs. -/
def isSpaceChar (c : Char) : Bool :=
  c = ' ' ∨ c = '\t' ∨ c = '\n' ∨ c = '\r'

/-- The simple-quote character, written by code point to avoid escaping. -/
def simpleQuoteChar : Char := Char.ofNat 39

/-- The double-quote character. -/
def doubleQuoteChar : Char := Char.ofNat 34

/-- The opening-curly-brace character. -/
def leftCurlyChar : Char := Char.ofNat 123

/-- The closing-curly-brace character. -/
def rightCurlyChar : Char := Char.ofNat 125

/-- `str::trim` modelled on the character list: drop whitespace from both
ends. -/
def trimChars (cs : List Char) : List Char :=
  ((cs.dropWhile isSpaceChar).reverse.dropWhile isSpaceChar).reverse

/-- `Tokenizer::skip_empty_space`: the loop calls `current()` before each
whitespace test, so running past the end of the text is the
`unexpected_eof` panic. -/
def skipSpaces : List Char → Except RuntimeError (Char × List Char)
  | [] => .error .lexError
  | c :: cs => if isSpaceChar c then skipSpaces cs else .ok (c, cs)

/-- `Tokenizer::identifier`: the maximal run of alphabetic characters. -/
def takeIdent : List Char → List Char × List Char
  | [] => ([], [])
  | c :: cs =>
      if c.isAlpha then
        let r := takeIdent cs
        (c :: r.1, r.2)
      else ([], c :: cs)

/-- `Tokenizer::number`: the maximal run of digits and decimal points,
panicking on a second decimal point. -/
def takeNumber (seenDot : Bool) : List Char → Except RuntimeError (List Char × List Char)
  | [] => .ok ([], [])
  | c :: cs =>
      if c.isDigit then
        match takeNumber seenDot cs with
        | .error e => .error e
        | .ok (ds, rest) => .ok (c :: ds, rest)
      else if c = '.' then
        if seenDot then .error .lexError
        else
          match takeNumber true cs with
          | .error e => .error e
          | .ok (ds, rest) => .ok (c :: ds, rest)
      else .ok ([], c :: cs)

/-- `Tokenizer::string`: collect until the matching quote; hitting the end
of the text first is the `unexpected_eof` panic (the opening quote has
already been consumed by the caller). -/
def takeStringLit (quote : Char) : List Char → Except RuntimeError (List Char × List Char)
  | [] => .error .lexError
  | c :: cs =>
      if c = quote then .ok ([], cs)
      else
        match takeStringLit quote cs with
        | .error e => .error e
        | .ok (ds, rest) => .ok (c :: ds, rest)

/-- One-character operator and punctuation tokens, in the test order of
`Tokenizer::tokenize` (the `!`/`!=` lookahead is handled by the caller). -/
def simpleToken {F : Type} (c : Char) : Option (Token F) :=
  if c = ';' then some .SemiColon
  else if c = '(' then some .LeftParen
  else if c = ')' then some .RightParen
  else if c = '[' then some .LeftSqBrace
  else if c = ']' then some .RightSqBrace
  else if c = leftCurlyChar then some .LeftCurlyBrace
  else if c = rightCurlyChar then some .RightCurlyBrace
  else if c = '=' then some .EqOp
  else if c = '+' then some .AddOp
  else if c = '-' then some .SubOp
  else if c = '*' then some .MulOp
  else if c = '/' then some .DivOp
  else if c = '^' then some .PowOp
  else if c = '>' then some .GtOp
  else if c = '<' then some .LtOp
  else if c = ',' then some .Comma
  else none

/-- The main loop of `Tokenizer::tokenize`.  Each iteration consumes at
least one character, so fuel `length + 1` suffices; fuel exhaustion is an
unreachable artifact reported as `fatal`. -/
def tokenizeLoop {F : Type} (ops : FloatOps F) :
    Nat → List Char → List (Token F) → Except RuntimeError (List (Token F))
  | 0, _, _ => .error .fatal
  | _ + 1, [], acc => .ok (acc ++ [.EOF])
  | fuel + 1, cs0, acc =>
      match skipSpaces cs0 with
      | .error e => .error e
      | .ok (c, rest) =>
          if c.isAlpha then
            let r := takeIdent (c :: rest)
            let s := String.mk r.1
            let tok : Token F :=
              if s = ("true") then .BoolLiteral true
              else if s = ("false") then .BoolLiteral false
              else .Identifier s
            tokenizeLoop ops fuel r.2 (acc ++ [tok])
          else if c.isDigit then
            (match takeNumber false (c :: rest) with
             | .error e => .error e
             | .ok (ds, rest2) =>
                 match ops.parseNum (String.mk ds) with
                 | none => .error .fatal
                 | some v => tokenizeLoop ops fuel rest2 (acc ++ [.NumberLiteral v]))
          else if c = '.' then
            (match rest with
             | [] => .error .lexError
             | d :: _ =>
                 if d.isDigit then
                   match takeNumber false (c :: rest) with
                   | .error e => .error e
                   | .ok (ds, rest2) =>
                       match ops.parseNum (String.mk ds) with
                       | none => .error .fatal
                       | some v => tokenizeLoop ops fuel rest2 (acc ++ [.NumberLiteral v])
                 else .error .lexError)
          else if c = simpleQuoteChar ∨ c = doubleQuoteChar then
            (match takeStringLit c rest with
             | .error e => .error e
             | .ok (ds, rest2) =>
                 tokenizeLoop ops fuel rest2 (acc ++ [.StringLiteral (String.mk ds)]))
          else if c = '!' then
            (match rest with
             | [] => .error .lexError
             | d :: rest2 =>
                 if d = '=' then tokenizeLoop ops fuel rest2 (acc ++ [.NotEqOp])
                 else tokenizeLoop ops fuel (d :: rest2) (acc ++ [.NegationOp]))
          else
            match simpleToken c with
            | some tok => tokenizeLoop ops fuel rest (acc ++ [tok])
            | none => .error .lexError

/-- `Tokenizer::new` plus `Tokenizer::tokenize`: trim the text, then run
the scanning loop and append the end-of-input sentinel. -/
def tokenize {F : Type} (ops : FloatOps F) (input : String) :
    Except RuntimeError (List (Token F)) :=
  let cs := trimChars input.toList
  tokenizeLoop ops (cs.length + 1) cs []

/-- `ASTNode` from parser.rs. -/
inductive AST (F : Type) where
  | Number (value : F)
  | Bool (value : Bool)
  | String (value : String)
  | Identifier (name : String)
  | FunctionCall (name : String) (args : List (AST F))
  | BinaryExpression (left : AST F) (right : AST F) (operator : Char)
  | UnaryExpression (sign : Char) (expr : AST F)
  | VarDeclaration (name : String) (value : AST F)
  | VarAssignment (name : String) (value : AST F)
  | IfStmt (expr : AST F) (true_block : List (AST F))

/-- `Parser::current`: indexing `tokens[pos]` out of bounds is a panic. -/
def pCurrent {F : Type} (tks : List (Token F)) (pos : Nat) : Except RuntimeError (Token F) :=
  match tks.get? pos with
  | some t => .ok t
  | none => .error .fatal

/-- `Parser::is_eof`: the current token is the sentinel or past the end. -/
def pIsEof {F : Type} (tks : List (Token F)) (pos : Nat) : Bool :=
  match tks.get? pos with
  | some .EOF => true
  | none => true
  | some _ => false

/-- `Parser::advance`: optionally check the current token's kind (panicking
on a mismatch), then move past it. -/
def pAdvance {F : Type} (tks : List (Token F)) (expected : Option TokenKind) (pos : Nat) :
    Except RuntimeError (Token F × Nat) :=
  match expected with
  | some kind =>
      (match pCurrent tks pos with
       | .error e => .error e
       | .ok t => if t.kind = kind then .ok (t, pos + 1) else .error .parseError)
  | none =>
      (match pCurrent tks pos with
       | .error e => .error e
       | .ok t => .ok (t, pos + 1))

/-- `Parser::expect`: look at the token after the current one; `false` at
end of input, and `unwrap` panics when `pos + 1` is out of bounds. -/
def pExpect {F : Type} (tks : List (Token F)) (kind : TokenKind) (pos : Nat) :
    Except RuntimeError Bool :=
  if pIsEof tks pos then .ok false
  else
    match tks.get? (pos + 1) with
    | some t => .ok (kind = t.kind)
    | none => .error .fatal

/-- `Parser::is_expr`: the token kinds that may start an expression. -/
def isExprToken {F : Type} (t : Token F) : Bool :=
  match t.kind with
  | .NumberLiteral => true
  | .StringLiteral => true
  | .LeftParen => true
  | .Identifier => true
  | .SubOp => true
  | .AddOp => true
  | _ => false

mutual

/-- The statement loop of `Parser::parse`: collect top-level nodes until
the end-of-input sentinel. -/
def parseLoop {F : Type} (tks : List (Token F)) :
    Nat → Nat → Except RuntimeError (List (AST F) × Nat)
  | 0, _ => .error .fatal
  | fuel + 1, pos =>
      if pIsEof tks pos then .ok ([], pos)
      else
        match parseExprOrStmt tks fuel pos with
        | .error e => .error e
        | .ok (node, pos2) =>
            match parseLoop tks fuel pos2 with
            | .error e => .error e
            | .ok (rest, pos3) => .ok (node :: rest, pos3)

termination_by structural fuel _ => fuel

/-- `Parser::parse_expr_or_stmt`.  A leading identifier is disambiguated
(`let`, `if`, call, assignment, bare identifier); any other leading token
is parsed as a comparison expression when it can start one, after which
the result is discarded and the function panics unconditionally
(`Not recognized token!`).  Every successful branch then consumes the
mandatory semicolon. -/
def parseExprOrStmt {F : Type} (tks : List (Token F)) :
    Nat → Nat → Except RuntimeError (AST F × Nat)
  | 0, _ => .error .fatal
  | fuel + 1, pos =>
      match pCurrent tks pos with
      | .error e => .error e
      | .ok t =>
          let stmt : Except RuntimeError (AST F × Nat) :=
            match t with
            | .Identifier v =>
                if v = ("let") then parseVarDeclaration tks fuel pos
                else if v = ("if") then parseIfStmt tks fuel pos
                else
                  (match pExpect tks .LeftParen pos with
                   | .error e => .error e
                   | .ok true => parseFunction tks fuel pos
                   | .ok false =>
                       match pExpect tks .EqOp pos with
                       | .error e => .error e
                       | .ok true => parseVarAssignment tks fuel pos
                       | .ok false => .ok (.Identifier v, pos + 1))
            | _ =>
                if isExprToken t then
                  match parseBoolExpression tks fuel pos with
                  | .error e => .error e
                  | .ok _ => .error .parseError
                else .error .parseError
          match stmt with
          | .error e => .error e
          | .ok (node, pos2) =>
              match pAdvance tks (some .SemiColon) pos2 with
              | .error e => .error e
              | .ok (_, pos3) => .ok (node, pos3)

termination_by structural fuel _ => fuel

/-- `Parser::parse_expr` (primary expressions). -/
def parseExpr {F : Type} (tks : List (Token F)) :
    Nat → Nat → Except RuntimeError (AST F × Nat)
  | 0, _ => .error .fatal
  | fuel + 1, pos =>
      match pCurrent tks pos with
      | .error e => .error e
      | .ok t =>
          match t with
          | .LeftParen =>
              (match parseBoolExpression tks fuel (pos + 1) with
               | .error e => .error e
               | .ok (node, pos2) =>
                   match pAdvance tks (some .RightParen) pos2 with
                   | .error e => .error e
                   | .ok (_, pos3) => .ok (node, pos3))
          | .NumberLiteral v => .ok (.Number v, pos + 1)
          | .BoolLiteral v => .ok (.Bool v, pos + 1)
          | .StringLiteral v => .ok (.String v, pos + 1)
          | .SubOp => parseUnaryExpression tks fuel pos
          | .AddOp => parseUnaryExpression tks fuel pos
          | .Identifier v =>
              if v = ("let") then parseVarDeclaration tks fuel pos
              else
                (match pExpect tks .LeftParen pos with
                 | .error e => .error e
                 | .ok true => parseFunction tks fuel pos
                 | .ok false =>
                     match pExpect tks .EqOp pos with
                     | .error e => .error e
                     | .ok true => parseVarAssignment tks fuel pos
                     | .ok false => .ok (.Identifier v, pos + 1))
          | _ => .error .parseError

termination_by structural fuel _ => fuel

/-- `Parser::parse_var_assignment`. -/
def parseVarAssignment {F : Type} (tks : List (Token F)) :
    Nat → Nat → Except RuntimeError (AST F × Nat)
  | 0, _ => .error .fatal
  | fuel + 1, pos =>
      match pAdvance tks (some .Identifier) pos with
      | .error e => .error e
      | .ok (nameTok, pos2) =>
          match pAdvance tks (some .EqOp) pos2 with
          | .error e => .error e
          | .ok (_, pos3) =>
              match parseSumExpression tks fuel pos3 with
              | .error e => .error e
              | .ok (value, pos4) =>
                  match nameTok.as_string with
                  | .error e => .error e
                  | .ok n => .ok (.VarAssignment n value, pos4)

termination_by structural fuel _ => fuel

/-- `Parser::parse_var_declaration`. -/
def parseVarDeclaration {F : Type} (tks : List (Token F)) :
    Nat → Nat → Except RuntimeError (AST F × Nat)
  | 0, _ => .error .fatal
  | fuel + 1, pos =>
      match pAdvance tks (some .Identifier) pos with
      | .error e => .error e
      | .ok (_, pos2) =>
          match pAdvance tks (some .Identifier) pos2 with
          | .error e => .error e
          | .ok (nameTok, pos3) =>
              match pAdvance tks (some .EqOp) pos3 with
              | .error e => .error e
              | .ok (_, pos4) =>
                  match parseSumExpression tks fuel pos4 with
                  | .error e => .error e
                  | .ok (value, pos5) =>
                      match nameTok.as_string with
                      | .error e => .error e
                      | .ok n => .ok (.VarDeclaration n value, pos5)

termination_by structural fuel _ => fuel

/-- `Parser::parse_function`. -/
def parseFunction {F : Type} (tks : List (Token F)) :
    Nat → Nat → Except RuntimeError (AST F × Nat)
  | 0, _ => .error .fatal
  | fuel + 1, pos =>
      match pAdvance tks (some .Identifier) pos with
      | .error e => .error e
      | .ok (identTok, pos2) =>
          match pAdvance tks (some .LeftParen) pos2 with
          | .error e => .error e
          | .ok (_, pos3) =>
              match parseArgs tks fuel pos3 with
              | .error e => .error e
              | .ok (args, pos4) =>
                  match pAdvance tks (some .RightParen) pos4 with
                  | .error e => .error e
                  | .ok (_, pos5) =>
                      match identTok.as_string with
                      | .error e => .error e
                      | .ok n => .ok (.FunctionCall n args, pos5)

termination_by structural fuel _ => fuel

/-- The argument loop of `Parser::parse_args`. -/
def parseArgs {F : Type} (tks : List (Token F)) :
    Nat → Nat → Except RuntimeError (List (AST F) × Nat)
  | 0, _ => .error .fatal
  | fuel + 1, pos =>
      if pIsEof tks pos then .ok ([], pos)
      else
        match pCurrent tks pos with
        | .error e => .error e
        | .ok t =>
            if t.kind = .RightParen then .ok ([], pos)
            else
              match parseSumExpression tks fuel pos with
              | .error e => .error e
              | .ok (arg, pos2) =>
                  match pCurrent tks pos2 with
                  | .error e => .error e
                  | .ok t2 =>
                      if t2.kind = .RightParen then .ok ([arg], pos2)
                      else
                        match pAdvance tks (some .Comma) pos2 with
                        | .error e => .error e
                        | .ok (_, pos3) =>
                            match parseArgs tks fuel pos3 with
                            | .error e => .error e
                            | .ok (rest, pos4) => .ok (arg :: rest, pos4)

termination_by structural fuel _ => fuel

/-- `Parser::parse_pow_expression`: a primary followed by the `^` loop. -/
def parsePowExpression {F : Type} (tks : List (Token F)) :
    Nat → Nat → Except RuntimeError (AST F × Nat)
  | 0, _ => .error .fatal
  | fuel + 1, pos =>
      match parseExpr tks fuel pos with
      | .error e => .error e
      | .ok (left, pos2) => parsePowLoop tks fuel left pos2

termination_by structural fuel _ => fuel

/-- The `while` loop of `parse_pow_expression`. -/
def parsePowLoop {F : Type} (tks : List (Token F)) :
    Nat → AST F → Nat → Except RuntimeError (AST F × Nat)
  | 0, _, _ => .error .fatal
  | fuel + 1, left, pos =>
      if pIsEof tks pos then .ok (left, pos)
      else
        match pCurrent tks pos with
        | .error e => .error e
        | .ok t =>
            if t.kind = .PowOp then
              match parseExpr tks fuel (pos + 1) with
              | .error e => .error e
              | .ok (right, pos2) =>
                  parsePowLoop tks fuel (.BinaryExpression left right '^') pos2
            else .ok (left, pos)

termination_by structural fuel _ _ => fuel

/-- `Parser::parse_mul_expression`: a power expression followed by the `*`
loop. -/
def parseMulExpression {F : Type} (tks : List (Token F)) :
    Nat → Nat → Except RuntimeError (AST F × Nat)
  | 0, _ => .error .fatal
  | fuel + 1, pos =>
      match parsePowExpression tks fuel pos with
      | .error e => .error e
      | .ok (left, pos2) => parseMulLoop tks fuel left pos2

termination_by structural fuel _ => fuel

/-- The `while` loop of `parse_mul_expression`. -/
def parseMulLoop {F : Type} (tks : List (Token F)) :
    Nat → AST F → Nat → Except RuntimeError (AST F × Nat)
  | 0, _, _ => .error .fatal
  | fuel + 1, left, pos =>
      if pIsEof tks pos then .ok (left, pos)
      else
        match pCurrent tks pos with
        | .error e => .error e
        | .ok t =>
            if t.kind = .MulOp then
              match parsePowExpression tks fuel (pos + 1) with
              | .error e => .error e
              | .ok (right, pos2) =>
                  parseMulLoop tks fuel (.BinaryExpression left right '*') pos2
            else .ok (left, pos)

termination_by structural fuel _ _ => fuel

/-- `Parser::parse_sum_expression`: a product followed by the `+`/`-`
loop. -/
def parseSumExpression {F : Type} (tks : List (Token F)) :
    Nat → Nat → Except RuntimeError (AST F × Nat)
  | 0, _ => .error .fatal
  | fuel + 1, pos =>
      match parseMulExpression tks fuel pos with
      | .error e => .error e
      | .ok (left, pos2) => parseSumLoop tks fuel left pos2

termination_by structural fuel _ => fuel

/-- The `while` loop of `parse_sum_expression`. -/
def parseSumLoop {F : Type} (tks : List (Token F)) :
    Nat → AST F → Nat → Except RuntimeError (AST F × Nat)
  | 0, _, _ => .error .fatal
  | fuel + 1, left, pos =>
      if pIsEof tks pos then .ok (left, pos)
      else
        match pCurrent tks pos with
        | .error e => .error e
        | .ok t =>
            if t.kind = .AddOp ∨ t.kind = .SubOp then
              let operator : Char := if t.kind = .AddOp then '+' else '-'
              match parseMulExpression tks fuel (pos + 1) with
              | .error e => .error e
              | .ok (right, pos2) =>
                  parseSumLoop tks fuel (.BinaryExpression left right operator) pos2
            else .ok (left, pos)

termination_by structural fuel _ _ => fuel

/-- `Parser::parse_bool_expression`: a sum followed by the `>`/`<` loop. -/
def parseBoolExpression {F : Type} (tks : List (Token F)) :
    Nat → Nat → Except RuntimeError (AST F × Nat)
  | 0, _ => .error .fatal
  | fuel + 1, pos =>
      match parseSumExpression tks fuel pos with
      | .error e => .error e
      | .ok (left, pos2) => parseBoolLoop tks fuel left pos2

termination_by structural fuel _ => fuel

/-- The `while` loop of `parse_bool_expression`. -/
def parseBoolLoop {F : Type} (tks : List (Token F)) :
    Nat → AST F → Nat → Except RuntimeError (AST F × Nat)
  | 0, _, _ => .error .fatal
  | fuel + 1, left, pos =>
      if pIsEof tks pos then .ok (left, pos)
      else
        match pCurrent tks pos with
        | .error e => .error e
        | .ok t =>
            if t.kind = .GtOp ∨ t.kind = .LtOp then
              let operator : Char := if t.kind = .GtOp then '>' else '<'
              match parseSumExpression tks fuel (pos + 1) with
              | .error e => .error e
              | .ok (right, pos2) =>
                  parseBoolLoop tks fuel (.BinaryExpression left right operator) pos2
            else .ok (left, pos)

termination_by structural fuel _ _ => fuel

/-- `Parser::parse_unary_expression`. -/
def parseUnaryExpression {F : Type} (tks : List (Token F)) :
    Nat → Nat → Except RuntimeError (AST F × Nat)
  | 0, _ => .error .fatal
  | fuel + 1, pos =>
      match pAdvance tks none pos with
      | .error e => .error e
      | .ok (t, pos2) =>
          let sign : Except RuntimeError Char :=
            match t with
            | .SubOp => .ok '-'
            | .AddOp => .ok '+'
            | _ => .error .fatal
          match sign with
          | .error e => .error e
          | .ok s =>
              match parseExpr tks fuel pos2 with
              | .error e => .error e
              | .ok (expr, pos3) => .ok (.UnaryExpression s expr, pos3)

termination_by structural fuel _ => fuel

/-- `Parser::parse_if_stmt`. -/
def parseIfStmt {F : Type} (tks : List (Token F)) :
    Nat → Nat → Except RuntimeError (AST F × Nat)
  | 0, _ => .error .fatal
  | fuel + 1, pos =>
      match pAdvance tks (some .Identifier) pos with
      | .error e => .error e
      | .ok (_, pos2) =>
          match parseExpr tks fuel pos2 with
          | .error e => .error e
          | .ok (expr, pos3) =>
              match pAdvance tks (some .LeftCurlyBrace) pos3 with
              | .error e => .error e
              | .ok (_, pos4) =>
                  match parseIfBlock tks fuel pos4 with
                  | .error e => .error e
                  | .ok (blk, pos5) =>
                      match pAdvance tks (some .RightCurlyBrace) pos5 with
                      | .error e => .error e
                      | .ok (_, pos6) => .ok (.IfStmt expr blk, pos6)

termination_by structural fuel _ => fuel

/-- The do-while body loop of `parse_if_stmt`. -/
def parseIfBlock {F : Type} (tks : List (Token F)) :
    Nat → Nat → Except RuntimeError (List (AST F) × Nat)
  | 0, _ => .error .fatal
  | fuel + 1, pos =>
      match parseExprOrStmt tks fuel pos with
      | .error e => .error e
      | .ok (node, pos2) =>
          match pCurrent tks pos2 with
          | .error e => .error e
          | .ok t =>
              if t.kind = .RightCurlyBrace then .ok ([node], pos2)
              else
                match parseIfBlock tks fuel pos2 with
                | .error e => .error e
                | .ok (rest, pos3) => .ok (node :: rest, pos3)

termination_by structural fuel _ => fuel

end

/-- `Parser::new` plus `Parser::parse`: tokenize the text and run the
statement loop from position zero.  The fuel bounds the recursion depth of
the descent; `8 * tokens + 8` is a safe over-approximation. -/
def parseProgram {F : Type} (ops : FloatOps F) (input : String) :
    Except RuntimeError (List (AST F)) :=
  match tokenize ops input with
  | .error e => .error e
  | .ok tks =>
      match parseLoop tks (8 * tks.length + 8) 0 with
      | .error e => .error e
      | .ok (nodes, _) => .ok nodes

/-- The outcome of evaluating a node: a value or a panic, in both cases
together with the environment and world reached so far (a Rust panic
aborts the run but the output already printed has happened). -/
inductive EvalOut (F : Type) where
  | ok (v : RuntimeValue F) (env : Env F) (w : World F)
  | err (e : RuntimeError) (env : Env F) (w : World F)
deriving DecidableEq

/-- The outcome of evaluating an argument list left to right. -/
inductive ArgsOut (F : Type) where
  | ok (vals : List (RuntimeValue F)) (env : Env F) (w : World F)
  | err (e : RuntimeError) (env : Env F) (w : World F)
deriving DecidableEq

/-- Lift a pure operator result into an evaluation outcome. -/
def liftVal {F : Type} (r : Except RuntimeError (RuntimeValue F)) (env : Env F)
    (w : World F) : EvalOut F :=
  match r with
  | .ok v => .ok v env w
  | .error e => .err e env w

mutual

/-- `Interpreter::initial_expression` together with the specialised
handlers it dispatches to (`binary_expression`, `unary_expression`,
`function_call`, `var_declaration`, `var_assignment`).  The source match
has no arm for `IfStmt`; evaluating one is therefore a fatal outcome.
Fuel bounds the recursion depth; `sizeOf node + 1` always suffices. -/
def evalNode {F : Type} (ops : FloatOps F) (fr : FunctionRegistry F) :
    Nat → AST F → Env F → World F → EvalOut F
  | 0, _, env, w => .err .fatal env w
  | fuel + 1, node, env, w =>
      match node with
      | .Number v => .ok (.number v) env w
      | .String v => .ok (.string v) env w
      | .Bool v => .ok (.bool v) env w
      | .BinaryExpression l r op =>
          (match evalNode ops fr fuel l env w with
           | .err e env2 w2 => .err e env2 w2
           | .ok lv env2 w2 =>
               match evalNode ops fr fuel r env2 w2 with
               | .err e env3 w3 => .err e env3 w3
               | .ok rv env3 w3 =>
                   match op with
                   | '-' => liftVal (RuntimeValue.subOp ops lv rv) env3 w3
                   | '+' => liftVal (RuntimeValue.addOp ops lv rv) env3 w3
                   | '*' => liftVal (RuntimeValue.mulOp ops lv rv) env3 w3
                   | '/' => liftVal (RuntimeValue.divOp ops lv rv) env3 w3
                   | '^' => liftVal (RuntimeValue.powOp ops lv rv) env3 w3
                   | _ => .err .fatal env3 w3)
      | .UnaryExpression sign e =>
          (match evalNode ops fr fuel e env w with
           | .err er env2 w2 => .err er env2 w2
           | .ok v env2 w2 =>
               liftVal
                 (RuntimeValue.mulOp ops v
                   (.number (if sign = '-' then ops.negOne else ops.one))) env2 w2)
      | .FunctionCall name args =>
          (match evalArgs ops fr fuel args env w with
           | .err e env2 w2 => .err e env2 w2
           | .ok vals env2 w2 =>
               match fr.call name vals w2 with
               | .error e => .err e env2 w2
               | .ok (v, w3) => .ok v env2 w3)
      | .VarDeclaration name value =>
          (match evalNode ops fr fuel value env w with
           | .err e env2 w2 => .err e env2 w2
           | .ok v env2 w2 =>
               match env2.add name v with
               | .error e => .err e env2 w2
               | .ok env3 => .ok .null env3 w2)
      | .VarAssignment name value =>
          (match evalNode ops fr fuel value env w with
           | .err e env2 w2 => .err e env2 w2
           | .ok v env2 w2 =>
               match env2.update name v with
               | .error e => .err e env2 w2
               | .ok env3 => .ok .null env3 w2)
      | .Identifier name =>
          (match env.get name with
           | .error e => .err e env w
           | .ok v => .ok v env w)
      | .IfStmt _ _ => .err .fatal env w

termination_by structural fuel _ _ _ => fuel

/-- The left-to-right, call-by-value evaluation of a call's argument list
(the `args.iter().map(..)` of `Interpreter::function_call`). -/
def evalArgs {F : Type} (ops : FloatOps F) (fr : FunctionRegistry F) :
    Nat → List (AST F) → Env F → World F → ArgsOut F
  | 0, _, env, w => .err .fatal env w
  | _ + 1, [], env, w => .ok [] env w
  | fuel + 1, a :: rest, env, w =>
      match evalNode ops fr fuel a env w with
      | .err e env2 w2 => .err e env2 w2
      | .ok v env2 w2 =>
          match evalArgs ops fr fuel rest env2 w2 with
          | .err e env3 w3 => .err e env3 w3
          | .ok vs env3 w3 => .ok (v :: vs) env3 w3

termination_by structural fuel _ _ _ => fuel

end

/-- The statement loop of `Interpreter::run`: `last_value` starts as
`Null` and is overwritten by each top-level statement in turn.  The same
fuel is handed to every statement; it only bounds the recursion depth
inside one statement. -/
def evalList {F : Type} (ops : FloatOps F) (fr : FunctionRegistry F) (fuel : Nat) :
    List (AST F) → RuntimeValue F → Env F → World F → EvalOut F
  | [], last, env, w => .ok last env w
  | n :: rest, _, env, w =>
      match evalNode ops fr fuel n env w with
      | .err e env2 w2 => .err e env2 w2
      | .ok v env2 w2 => evalList ops fr fuel rest v env2 w2

/-- `Interpreter::new` followed by `Interpreter::run`: a fresh root
environment and the built-in registry, then parse the input and evaluate
the statements in order, returning the value of the last one.  Every node
of the tree owns at least one distinct token, and every token at least one
character, so `input.length + 2` fuel always covers the recursion depth. -/
def Interpreter.run {F : Type} (ops : FloatOps F) (input : String) (w : World F) :
    EvalOut F :=
  match parseProgram ops input with
  | .error e => .err e (Env.root []) w
  | .ok ast =>
      evalList ops (FunctionRegistry.new ops) (input.length + 2) ast .null (Env.root []) w

/-- Digit-string accumulator for the integer literal parser of the
concrete instantiation. -/
def digitsToNat (acc : Nat) : List Char → Option Nat
  | [] => some acc
  | c :: cs => if c.isDigit then digitsToNat (acc * 10 + (c.toNat - 48)) cs else none

/-- Integer literal parser for the concrete instantiation (an optional
minus sign followed by a nonempty digit run). -/
def parseIntChars (s : String) : Option Int :=
  match s.toList with
  | [] => none
  | '-' :: [] => none
  | '-' :: d :: ds => (digitsToNat 0 (d :: ds)).map (fun n => -(n : Int))
  | d :: ds => (digitsToNat 0 (d :: ds)).map (fun n => (n : Int))

/-- The concrete instantiation of the number type used by the executable
examples: integers, with the cast and rendering conventions of `f32`
(`as usize` truncates toward zero and clamps negatives to zero; `Display`
prints integral values without a decimal point). -/
def intOps : FloatOps Int where
  add := fun a b => a + b
  sub := fun a b => a - b
  mul := fun a b => a * b
  div := fun a b => a / b
  powf := fun a b => a ^ b.toNat
  isZero := fun a => a = 0
  toUsize := fun a => a.toNat
  toStr := fun a => toString a
  parseNum := parseIntChars
  one := 1
  negOne := -1

theorem Env.vars_withVars {F : Type} (e : Env F) (vs : List (String × RuntimeValue F)) :
    (e.withVars vs).vars = vs := by
  cases e <;> rfl

theorem evalList_append {F : Type} (ops : FloatOps F) (fr : FunctionRegistry F) (fuel : Nat)
    (xs ys : List (AST F)) (v : RuntimeValue F) (env : Env F) (w : World F) :
    evalList ops fr fuel (xs ++ ys) v env w =
      (match evalList ops fr fuel xs v env w with
       | .ok v2 env2 w2 => evalList ops fr fuel ys v2 env2 w2
       | .err e env2 w2 => .err e env2 w2) := by
  induction xs generalizing v env w with
  | nil => simp [evalList]
  | cons a rest ih =>
      simp only [List.cons_append, evalList]
      cases evalNode ops fr fuel a env w with
      | ok v2 env2 w2 => simp [ih]
      | err e env2 w2 => simp

theorem evalList_single {F : Type} (ops : FloatOps F) (fr : FunctionRegistry F) (fuel : Nat)
    (n : AST F) (v : RuntimeValue F) (env : Env F) (w : World F) :
    evalList ops fr fuel [n] v env w = evalNode ops fr fuel n env w := by
  simp only [evalList]
  cases evalNode ops fr fuel n env w <;> simp [evalList]

theorem typeCheckLoop_step {F : Type} (pts : List RuntimeType) (hlen : 0 < pts.length)
    (a : RuntimeValue F) (rest : List (RuntimeValue F)) (i : Nat) :
    typeCheckLoop false pts (a :: rest) i =
      (if a.matches_type (pts.getD (min i (pts.length - 1)) RuntimeType.Any)
       then typeCheckLoop false pts rest (i + 1)
       else Except.error RuntimeError.typeError) := by
  by_cases hc : pts.length ≤ i
  · have hmin : min i (pts.length - 1) = pts.length - 1 := Nat.min_eq_right (by omega)
    rw [hmin]
    have hidx : pts.length - 1 < pts.length := by omega
    have hgd : pts.getD (pts.length - 1) RuntimeType.Any = pts.get ⟨pts.length - 1, hidx⟩ := by
      rw [List.getD_eq_getElem?_getD, List.getElem?_eq_getElem hidx]
      rfl
    simp only [typeCheckLoop, hc, and_true, eq_self_iff_true, true_and, if_true,
      if_neg (show ¬ pts.length = 0 by omega), List.get?_eq_get hidx, hgd]
  · have hmin : min i (pts.length - 1) = i := Nat.min_eq_left (by omega)
    rw [hmin]
    have hidx : i < pts.length := by omega
    have hgd : pts.getD i RuntimeType.Any = pts.get ⟨i, hidx⟩ := by
      rw [List.getD_eq_getElem?_getD, List.getElem?_eq_getElem hidx]
      rfl
    simp only [typeCheckLoop, hc, and_false, if_false, List.get?_eq_get hidx, hgd]

theorem typeCheckLoop_all_ok {F : Type} (pts : List RuntimeType) (hne : pts ≠ [])
    (args : List (RuntimeValue F)) (i : Nat)
    (h : ∀ j (hj : j < args.length),
           (args.get ⟨j, hj⟩).matches_type
             (pts.getD (min (i + j) (pts.length - 1)) RuntimeType.Any) = true) :
    typeCheckLoop false pts args i = Except.ok () := by
  induction args generalizing i with
  | nil => rfl
  | cons a rest ih =>
      rw [typeCheckLoop_step pts (List.length_pos.mpr hne)]
      have hh : a.matches_type (pts.getD (min i (pts.length - 1)) RuntimeType.Any) = true :=
        h 0 (by simp)
      rw [if_pos hh]
      refine ih (i + 1) (fun j hj => ?_)
      have heq : (i + 1) + j = i + (j + 1) := by omega
      rw [heq]
      exact h (j + 1) (by simpa using Nat.succ_lt_succ hj)

theorem typeCheckLoop_mismatch {F : Type} (pts : List RuntimeType) (hne : pts ≠ [])
    (args : List (RuntimeValue F)) (i : Nat)
    (h : ∃ j, ∃ hj : j < args.length,
           (args.get ⟨j, hj⟩).matches_type
             (pts.getD (min (i + j) (pts.length - 1)) RuntimeType.Any) = false) :
    typeCheckLoop false pts args i = Except.error RuntimeError.typeError := by
  induction args generalizing i with
  | nil =>
      obtain ⟨j, hj, _⟩ := h
      exact absurd hj (by simp)
  | cons a rest ih =>
      rw [typeCheckLoop_step pts (List.length_pos.mpr hne)]
      obtain ⟨j, hj, hmis⟩ := h
      cases j with
      | zero =>
          have hmis0 : a.matches_type (pts.getD (min i (pts.length - 1)) RuntimeType.Any)
              = false := hmis
          rw [if_neg (fun hx => by rw [hx] at hmis0; exact Bool.noConfusion hmis0)]
      | succ j =>
          by_cases hh : a.matches_type (pts.getD (min i (pts.length - 1)) RuntimeType.Any) = true
          · rw [if_pos hh]
            refine ih (i + 1) ⟨j, by simpa using Nat.lt_of_succ_lt_succ hj, ?_⟩
            have heq : (i + 1) + j = i + (j + 1) := by omega
            rw [heq]
            exact hmis
          · rw [if_neg hh]

/-- C1: the claim states that a bare top-level expression (one not
beginning with an identifier) is accepted, so that `run` on `2 ^ 10;`
returns `Number(1024)`.  The code contradicts this: `parse_expr_or_stmt`
parses the comparison expression, discards the result and panics
unconditionally, so `run` aborts with a parse error — even though the
discarded `^` node itself would have evaluated to `Number(1024)`. -/
theorem C1_bare_expression_statement_rejected :
    Interpreter.run intOps ("2 ^ 10;") (emptyWorld : World Int) =
      EvalOut.err RuntimeError.parseError (Env.root []) emptyWorld ∧
    parseProgram intOps ("2 ^ 10;") =
      (Except.error RuntimeError.parseError : Except RuntimeError (List (AST Int))) ∧
    evalNode intOps (FunctionRegistry.new intOps) 2
        (AST.BinaryExpression (AST.Number 2) (AST.Number 10) '^') (Env.root [])
        (emptyWorld : World Int) =
      EvalOut.ok (RuntimeValue.number 1024) (Env.root []) emptyWorld :=
  ⟨rfl, rfl, rfl⟩

/-- C2 (counterexample): the claim states that assignment searches outward
through the scope chain.  Here the name `x` is resolvable in the chain
(it is bound in the parent scope), yet `update` fails with a name error,
refuting the claim. -/
theorem C2_counterexample_update_ignores_parent :
    (Env.child [] (Env.root [(("x"), RuntimeValue.number (1 : Int))])).get ("x") =
      Except.ok (RuntimeValue.number 1) ∧
    (Env.child [] (Env.root [(("x"), RuntimeValue.number (1 : Int))])).update ("x")
        (RuntimeValue.number 2) =
      Except.error RuntimeError.nameError :=
  ⟨rfl, rfl⟩

/-- C2 (amended): `Env::update` consults only the innermost (current)
scope: it fails with a name error exactly when the name is absent from the
current scope's map — even if an enclosing scope binds it — and otherwise
overwrites the binding in the current scope, leaving the parent and all
other names untouched. -/
theorem C2_update_checks_only_current_scope {F : Type} (e : Env F) (n : String)
    (v : RuntimeValue F) :
    (MapList.containsKey e.vars n = false →
       e.update n v = Except.error RuntimeError.nameError) ∧
    (MapList.containsKey e.vars n = true →
       e.update n v = Except.ok (e.withVars (MapList.insert e.vars n v)) ∧
       (e.withVars (MapList.insert e.vars n v)).get n = Except.ok v ∧
       (e.withVars (MapList.insert e.vars n v)).parent = e.parent ∧
       (∀ m, m ≠ n → (e.withVars (MapList.insert e.vars n v)).get m = e.get m)) := by
  refine ⟨fun h => by simp [Env.update, h], fun h => ⟨by simp [Env.update, h], ?_, ?_, ?_⟩⟩
  · cases e <;> simp [Env.withVars, Env.get, Env.vars, MapList.lookup_insert_self]
  · cases e <;> simp [Env.withVars, Env.parent]
  · intro m hm
    cases e <;> simp [Env.withVars, Env.get, Env.vars, MapList.lookup_insert_ne _ _ _ _ hm]

/-- Witness for C2 (amended), at a missing and at a present binding. -/
theorem C2_update_checks_only_current_scope_witness :
    (Env.root ([] : List (String × RuntimeValue Int))).update ("x") (RuntimeValue.number 2) =
      Except.error RuntimeError.nameError ∧
    (Env.root [(("x"), RuntimeValue.number (1 : Int))]).update ("x") (RuntimeValue.number 2) =
      Except.ok ((Env.root [(("x"), RuntimeValue.number (1 : Int))]).withVars
        (MapList.insert (Env.root [(("x"), RuntimeValue.number (1 : Int))]).vars ("x")
          (RuntimeValue.number 2))) :=
  ⟨(C2_update_checks_only_current_scope (Env.root []) ("x") (RuntimeValue.number 2)).1 rfl,
   ((C2_update_checks_only_current_scope (Env.root [(("x"), RuntimeValue.number 1)]) ("x")
      (RuntimeValue.number 2)).2 rfl).1⟩

/-- C3: dividing two Numbers fails with an arithmetic error exactly when
the divisor compares equal to `0.0`, and otherwise yields exactly the
float quotient of the two operands, with no adjustment. -/
theorem C3_division_semantics {F : Type} (ops : FloatOps F) (fr : FunctionRegistry F)
    (fuel : Nat) (la ra : AST F) (env env1 env2 : Env F) (w w1 w2 : World F) (x y : F)
    (hl : evalNode ops fr fuel la env w = EvalOut.ok (RuntimeValue.number x) env1 w1)
    (hr : evalNode ops fr fuel ra env1 w1 = EvalOut.ok (RuntimeValue.number y) env2 w2) :
    (ops.isZero y = true →
       evalNode ops fr (fuel + 1) (AST.BinaryExpression la ra '/') env w =
         EvalOut.err RuntimeError.arithmeticError env2 w2) ∧
    (ops.isZero y = false →
       evalNode ops fr (fuel + 1) (AST.BinaryExpression la ra '/') env w =
         EvalOut.ok (RuntimeValue.number (ops.div x y)) env2 w2) := by
  constructor <;> intro h <;>
    simp [evalNode, hl, hr, RuntimeValue.divOp, liftVal, h]

/-- Witness for C3: `6 / 0` aborts with an arithmetic error and `6 / 3`
yields the quotient. -/
theorem C3_division_semantics_witness :
    evalNode intOps (FunctionRegistry.new intOps) 2
        (AST.BinaryExpression (AST.Number 6) (AST.Number 0) '/') (Env.root [])
        (emptyWorld : World Int) =
      EvalOut.err RuntimeError.arithmeticError (Env.root []) emptyWorld ∧
    evalNode intOps (FunctionRegistry.new intOps) 2
        (AST.BinaryExpression (AST.Number 6) (AST.Number 3) '/') (Env.root [])
        (emptyWorld : World Int) =
      EvalOut.ok (RuntimeValue.number (intOps.div 6 3)) (Env.root []) emptyWorld :=
  ⟨(C3_division_semantics intOps (FunctionRegistry.new intOps) 1 (AST.Number 6) (AST.Number 0)
      (Env.root []) (Env.root []) (Env.root []) emptyWorld emptyWorld emptyWorld 6 0
      rfl rfl).1 rfl,
   (C3_division_semantics intOps (FunctionRegistry.new intOps) 1 (AST.Number 6) (AST.Number 3)
      (Env.root []) (Env.root []) (Env.root []) emptyWorld emptyWorld emptyWorld 6 3
      rfl rfl).2 rfl⟩

/-- C4: whenever the input parses, `run` returns `Null` for an empty
statement list, and otherwise the value of the last top-level statement,
evaluated in the state produced by the preceding ones (whose own values
are discarded); a failure anywhere is propagated instead. -/
theorem C4_run_returns_last_statement_value {F : Type} (ops : FloatOps F) (input : String)
    (stmts : List (AST F)) (w : World F)
    (h : parseProgram ops input = Except.ok stmts) :
    (stmts = [] → Interpreter.run ops input w = EvalOut.ok RuntimeValue.null (Env.root []) w) ∧
    (∀ pre last, stmts = pre ++ [last] →
       Interpreter.run ops input w =
         (match evalList ops (FunctionRegistry.new ops) (input.length + 2) pre
              RuntimeValue.null (Env.root []) w with
          | .ok _ env2 w2 =>
              evalNode ops (FunctionRegistry.new ops) (input.length + 2) last env2 w2
          | .err e env2 w2 => EvalOut.err e env2 w2)) := by
  constructor
  · intro he
    subst he
    simp [Interpreter.run, h, evalList]
  · intro pre last hs
    subst hs
    simp only [Interpreter.run, h]
    rw [evalList_append]
    cases evalList ops (FunctionRegistry.new ops) (input.length + 2) pre .null (Env.root []) w with
    | ok v2 env2 w2 => simp [evalList_single]
    | err e env2 w2 => simp

/-- Witness for C4: the empty input parses to no statements and `run`
returns `Null`. -/
theorem C4_run_returns_last_statement_value_witness :
    parseProgram intOps ("") = Except.ok ([] : List (AST Int)) ∧
    Interpreter.run intOps ("") (emptyWorld : World Int) =
      EvalOut.ok RuntimeValue.null (Env.root []) emptyWorld :=
  ⟨rfl, (C4_run_returns_last_statement_value intOps ("") [] emptyWorld rfl).1 rfl⟩

/-- C5: redeclaring a name that already exists in the current scope fails
with a name error whatever the two values are, and on
`let x = 1; let x = 2;` the whole run aborts with a name error before any
output line has been produced. -/
theorem C5_redeclaration_always_name_error {F : Type} (e e2 : Env F) (n : String)
    (v1 v2 : RuntimeValue F) (h : e.add n v1 = Except.ok e2) :
    e2.add n v2 = Except.error RuntimeError.nameError ∧
    Interpreter.run intOps ("let x = 1; let x = 2;") (emptyWorld : World Int) =
      EvalOut.err RuntimeError.nameError (Env.root [(("x"), RuntimeValue.number 1)])
        emptyWorld ∧
    (emptyWorld : World Int).output = ([] : List String) := by
  refine ⟨?_, by rfl, rfl⟩
  by_cases hc : MapList.containsKey e.vars n = true
  · simp [Env.add, hc] at h
  · simp only [Env.add, hc, if_neg, Bool.not_eq_true] at h
    obtain rfl : e.withVars (MapList.insert e.vars n v1) = e2 := by
      cases h
      rfl
    simp [Env.add, Env.vars_withVars, MapList.containsKey_insert_self]

/-- Witness for C5, after the successful declaration of `x`. -/
theorem C5_redeclaration_always_name_error_witness :
    (Env.root [(("x"), RuntimeValue.number (1 : Int))]).add ("x") (RuntimeValue.number 2) =
      Except.error RuntimeError.nameError ∧
    Interpreter.run intOps ("let x = 1; let x = 2;") (emptyWorld : World Int) =
      EvalOut.err RuntimeError.nameError (Env.root [(("x"), RuntimeValue.number 1)])
        emptyWorld ∧
    (emptyWorld : World Int).output = ([] : List String) :=
  C5_redeclaration_always_name_error (Env.root []) (Env.root [(("x"), RuntimeValue.number 1)])
    ("x") (RuntimeValue.number 1) (RuntimeValue.number 2) rfl

/-- C6: for a registered variadic function whose declared parameter-kind
list is nonempty, and an argument list meeting the arity minimum, every
argument position beyond the declared list is checked against the last
declared kind (position `min j (len - 1)`), `Any` matches every value,
and the call reaches the native implementation exactly when every check
passes — any mismatch aborts with a type error before the implementation
runs. -/
theorem C6_variadic_checks_last_kind {F : Type} (fr : FunctionRegistry F) (fname : String)
    (f : Function F) (args : List (RuntimeValue F)) (w : World F) (m : Nat)
    (hf : MapList.lookup fr.functions fname = some f)
    (hd : f.expected_params = ParamCount.Dynamic m)
    (ha : m ≤ args.length)
    (hne : f.param_types ≠ []) :
    (∀ v : RuntimeValue F, v.matches_type RuntimeType.Any = true) ∧
    ((∀ j (hj : j < args.length),
        (args.get ⟨j, hj⟩).matches_type
          (f.param_types.getD (min j (f.param_types.length - 1)) RuntimeType.Any) = true) →
      fr.call fname args w = f.impl args w) ∧
    ((∃ j, ∃ hj : j < args.length,
        (args.get ⟨j, hj⟩).matches_type
          (f.param_types.getD (min j (f.param_types.length - 1)) RuntimeType.Any) = false) →
      fr.call fname args w = Except.error RuntimeError.typeError) := by
  have harity : checkArity f.expected_params args.length = Except.ok () := by
    rw [hd]
    simp [checkArity, Nat.not_lt.mpr ha]
  have hfix : f.expected_params.is_fixed = false := by
    rw [hd]
    rfl
  refine ⟨fun v => by cases v <;> rfl, ?_, ?_⟩
  · intro hall
    have hok : typeCheckLoop false f.param_types args 0 = Except.ok () := by
      refine typeCheckLoop_all_ok f.param_types hne args 0 (fun j hj => ?_)
      simpa [Nat.zero_add] using hall j hj
    simp [FunctionRegistry.call, hf, Function.dispatch, harity, hfix, hok]
  · intro hex
    have herr : typeCheckLoop false f.param_types args 0 =
        Except.error RuntimeError.typeError := by
      refine typeCheckLoop_mismatch f.param_types hne args 0 ?_
      obtain ⟨j, hj, hmis⟩ := hex
      exact ⟨j, hj, by simpa [Nat.zero_add] using hmis⟩
    simp [FunctionRegistry.call, hf, Function.dispatch, harity, hfix, herr]

/-- A variadic String function mirroring the `concat` entry of the
registry's own test, with an inert implementation; used by the C6
witness. -/
def concatFn : Function Int :=
  ⟨"concat", ParamCount.Dynamic 2, [RuntimeType.String, RuntimeType.String],
   fun _ w => .ok (.null, w)⟩

/-- Witness for C6: a Number in the third (beyond-declared) position of a
String-variadic call is rejected with a type error. -/
theorem C6_variadic_checks_last_kind_witness :
    FunctionRegistry.call ⟨[(("concat"), concatFn)]⟩ ("concat")
        [RuntimeValue.string ("a"), RuntimeValue.string ("b"), RuntimeValue.number 3]
        (emptyWorld : World Int) =
      Except.error RuntimeError.typeError :=
  (C6_variadic_checks_last_kind ⟨[(("concat"), concatFn)]⟩ ("concat") concatFn
      [RuntimeValue.string ("a"), RuntimeValue.string ("b"), RuntimeValue.number 3]
      emptyWorld 2 rfl rfl (by decide) (by decide)).2.2
    ⟨2, by decide, rfl⟩

/-- C7: multiplying a String and a Number (in either operand order)
yields the string repeated `toUsize` of the number times (truncation
toward zero, negatives clamped to zero, as Rust's `as usize`); in
particular the expression `"ab" * 3` evaluates to `String("ababab")`. -/
theorem C7_string_number_multiplication {F : Type} (ops : FloatOps F) (s : String) (n : F) :
    RuntimeValue.mulOp ops (RuntimeValue.string s) (RuntimeValue.number n) =
      Except.ok (RuntimeValue.string (strRepeat s (ops.toUsize n))) ∧
    RuntimeValue.mulOp ops (RuntimeValue.number n) (RuntimeValue.string s) =
      Except.ok (RuntimeValue.string (strRepeat s (ops.toUsize n))) ∧
    evalNode intOps (FunctionRegistry.new intOps) 2
        (AST.BinaryExpression (AST.String ("ab")) (AST.Number 3) '*') (Env.root [])
        (emptyWorld : World Int) =
      EvalOut.ok (RuntimeValue.string ("ababab")) (Env.root []) emptyWorld :=
  ⟨rfl, rfl, rfl⟩

/-- Witness for C7 at `s = "ab"`, `n = 3`. -/
theorem C7_string_number_multiplication_witness :
    RuntimeValue.mulOp intOps (RuntimeValue.string ("ab")) (RuntimeValue.number (3 : Int)) =
      Except.ok (RuntimeValue.string (strRepeat ("ab") (intOps.toUsize 3))) ∧
    RuntimeValue.mulOp intOps (RuntimeValue.number (3 : Int)) (RuntimeValue.string ("ab")) =
      Except.ok (RuntimeValue.string (strRepeat ("ab") (intOps.toUsize 3))) ∧
    evalNode intOps (FunctionRegistry.new intOps) 2
        (AST.BinaryExpression (AST.String ("ab")) (AST.Number 3) '*') (Env.root [])
        (emptyWorld : World Int) =
      EvalOut.ok (RuntimeValue.string ("ababab")) (Env.root []) emptyWorld :=
  C7_string_number_multiplication intOps ("ab") 3

/-- C8: a unary expression evaluates its operand and multiplies the value
by `Number(-1)` for sign `-` (and `Number(+1)` for any other sign, in
particular `+`) under the `*` operator semantics; consequently unary
minus on a String dispatches to the string-repeat overload — here
`- "abc"` yields the empty string — instead of failing with a sign
error. -/
theorem C8_unary_multiplies_by_sign {F : Type} (ops : FloatOps F) (fr : FunctionRegistry F)
    (fuel : Nat) (sign : Char) (e : AST F) (env env2 : Env F) (w w2 : World F)
    (v : RuntimeValue F)
    (h : evalNode ops fr fuel e env w = EvalOut.ok v env2 w2) :
    evalNode ops fr (fuel + 1) (AST.UnaryExpression sign e) env w =
      liftVal (RuntimeValue.mulOp ops v
        (RuntimeValue.number (if sign = '-' then ops.negOne else ops.one))) env2 w2 ∧
    evalNode intOps (FunctionRegistry.new intOps) 2
        (AST.UnaryExpression '-' (AST.String ("abc"))) (Env.root [])
        (emptyWorld : World Int) =
      EvalOut.ok (RuntimeValue.string ("")) (Env.root []) emptyWorld :=
  ⟨by simp [evalNode, h], rfl⟩

/-- Witness for C8, applying unary minus to the String `"abc"`. -/
theorem C8_unary_multiplies_by_sign_witness :
    evalNode intOps (FunctionRegistry.new intOps) 2
        (AST.UnaryExpression '-' (AST.String ("abc"))) (Env.root [])
        (emptyWorld : World Int) =
      liftVal (RuntimeValue.mulOp intOps (RuntimeValue.string ("abc"))
        (RuntimeValue.number (if ('-' : Char) = '-' then intOps.negOne else intOps.one)))
        (Env.root []) emptyWorld ∧
    evalNode intOps (FunctionRegistry.new intOps) 2
        (AST.UnaryExpression '-' (AST.String ("abc"))) (Env.root [])
        (emptyWorld : World Int) =
      EvalOut.ok (RuntimeValue.string ("")) (Env.root []) emptyWorld :=
  C8_unary_multiplies_by_sign intOps (FunctionRegistry.new intOps) 1 '-'
    (AST.String ("abc")) (Env.root []) (Env.root []) emptyWorld emptyWorld
    (RuntimeValue.string ("abc")) rfl

/-- C9: once both operands have evaluated, a binary node whose operator is
`<` or `>` always aborts fatally — the evaluator's operator dispatch has
no case for the comparison operators — although the parser does produce
such nodes, e.g. for `let x = (1 < 2);`. -/
theorem C9_comparison_operators_fatal {F : Type} (ops : FloatOps F)
    (fr : FunctionRegistry F) (fuel : Nat) (la ra : AST F) (env env1 env2 : Env F)
    (w w1 w2 : World F) (v1 v2 : RuntimeValue F)
    (hl : evalNode ops fr fuel la env w = EvalOut.ok v1 env1 w1)
    (hr : evalNode ops fr fuel ra env1 w1 = EvalOut.ok v2 env2 w2) :
    evalNode ops fr (fuel + 1) (AST.BinaryExpression la ra '<') env w =
      EvalOut.err RuntimeError.fatal env2 w2 ∧
    evalNode ops fr (fuel + 1) (AST.BinaryExpression la ra '>') env w =
      EvalOut.err RuntimeError.fatal env2 w2 ∧
    parseProgram intOps ("let x = (1 < 2);") =
      Except.ok [AST.VarDeclaration ("x")
        (AST.BinaryExpression (AST.Number 1) (AST.Number 2) '<')] :=
  ⟨by simp [evalNode, hl, hr], by simp [evalNode, hl, hr], rfl⟩

/-- Witness for C9 at `1 < 2` and `1 > 2`. -/
theorem C9_comparison_operators_fatal_witness :
    evalNode intOps (FunctionRegistry.new intOps) 2
        (AST.BinaryExpression (AST.Number 1) (AST.Number 2) '<') (Env.root [])
        (emptyWorld : World Int) =
      EvalOut.err RuntimeError.fatal (Env.root []) emptyWorld ∧
    evalNode intOps (FunctionRegistry.new intOps) 2
        (AST.BinaryExpression (AST.Number 1) (AST.Number 2) '>') (Env.root [])
        (emptyWorld : World Int) =
      EvalOut.err RuntimeError.fatal (Env.root []) emptyWorld ∧
    parseProgram intOps ("let x = (1 < 2);") =
      Except.ok [AST.VarDeclaration ("x")
        (AST.BinaryExpression (AST.Number 1) (AST.Number 2) '<')] :=
  C9_comparison_operators_fatal intOps (FunctionRegistry.new intOps) 1
    (AST.Number 1) (AST.Number 2) (Env.root []) (Env.root []) (Env.root [])
    emptyWorld emptyWorld emptyWorld (RuntimeValue.number 1) (RuntimeValue.number 2) rfl rfl

/-- C10: registering a function under a name that is already present
silently replaces the previous entry (a plain map insert — no uniqueness
check, no error), and a subsequent call by that name dispatches to the
most recently registered entry. -/
theorem C10_add_function_replaces_silently {F : Type} (fr : FunctionRegistry F)
    (f g : Function F) (hn : g.name = f.name) (args : List (RuntimeValue F)) (w : World F) :
    MapList.lookup ((fr.add_function f).add_function g).functions f.name = some g ∧
    ((fr.add_function f).add_function g).call f.name args w = g.dispatch args w := by
  have hlk : MapList.lookup ((fr.add_function f).add_function g).functions f.name = some g := by
    simp only [FunctionRegistry.add_function]
    rw [← hn]
    exact MapList.lookup_insert_self _ _ _
  exact ⟨hlk, by simp [FunctionRegistry.call, hlk]⟩

/-- First registration of the name `dup`, for the C10 witness. -/
def fnA : Function Int :=
  ⟨"dup", ParamCount.Fixed 0, [], fun _ w => .ok (.number 1, w)⟩

/-- Second registration of the name `dup`, for the C10 witness. -/
def fnB : Function Int :=
  ⟨"dup", ParamCount.Fixed 0, [], fun _ w => .ok (.number 2, w)⟩

/-- Witness for C10: after registering `fnA` then `fnB` under the same
name, lookup and call both reach `fnB`. -/
theorem C10_add_function_replaces_silently_witness :
    MapList.lookup
        (((⟨[]⟩ : FunctionRegistry Int).add_function fnA).add_function fnB).functions
        fnA.name = some fnB ∧
    (((⟨[]⟩ : FunctionRegistry Int).add_function fnA).add_function fnB).call fnA.name []
        (emptyWorld : World Int) = fnB.dispatch [] emptyWorld :=
  C10_add_function_replaces_silently ⟨[]⟩ fnA fnB rfl [] emptyWorld

end RustyScript
